import Mathlib

/-!
Verification development for the mt5-python-bot trading pipeline.

Shallow embedding conventions:
- Python floats are embedded as rationals (exact arithmetic); the properties
  checked here are order/containment facts that are exact in this idealization.
- datetimes carried by candles are embedded by their integer epoch seconds
  (the code itself compares candles by integer epoch).
- `None`-able values are `Option`; dataclasses are structures.
- Symbols are opaque identifiers, embedded as naturals.
-/

/-- Python banker's rounding of a rational to the nearest integer
(round-half-to-even, as used by the built-in round and by printf-style
formatting in the idealized model). -/
def halfEvenInt (q : ℚ) : ℤ :=
  let n := ⌊q⌋
  if q - n < 1/2 then n
  else if q - n > 1/2 then n + 1
  else if Even n then n else n + 1

/-- Python round(x, d): banker's rounding at d decimal places. -/
def pyRound (x : ℚ) (d : ℕ) : ℚ :=
  (halfEvenInt (x * 10 ^ d) : ℚ) / 10 ^ d

/-- Count factors of 10 of an integer, with fuel (at most fuel factors). -/
def tzCount : ℕ → ℤ → ℕ
  | 0, _ => 0
  | k + 1, m => if m % 10 = 0 ∧ m ≠ 0 then tzCount k (m / 10) + 1 else 0

/-- app/domain/models.py Candle: time_utc is embedded by its epoch seconds
(the open time); epoch is the raw server timestamp used as ordering key. -/
structure Candle where
  timeUtc : ℤ
  epoch : ℤ
  open_ : ℚ
  high : ℚ
  low : ℚ
  close : ℚ
  volume : ℚ
deriving DecidableEq

/-- app/domain/models.py SymbolMeta. -/
structure SymbolMeta where
  name : ℕ
  digits : ℕ
  tickSize : ℚ
  tickValue : ℚ
  lotStep : ℚ
  minLot : ℚ
  stopsLevel : ℤ
  freezeLevel : ℤ
deriving DecidableEq

/-- app/domain/signals.py SignalSide. -/
inductive SignalSide where
  | BUY
  | SELL
deriving DecidableEq

/-- app/domain/signals.py Bias. -/
inductive Bias where
  | BULLISH
  | BEARISH
  | NONE
deriving DecidableEq

/-- app/domain/signals.py Signal (candle_time_utc embedded by epoch seconds). -/
structure Signal where
  symbol : ℕ
  side : SignalSide
  candleTimeUtc : ℤ
  timeframeMinutes : ℤ
  bias : Bias
  entry : Option ℚ := none
  stopLoss : Option ℚ := none
  takeProfit : Option ℚ := none
  isLive : Bool := true
deriving DecidableEq

/-- app/domain/indicators.py _alpha: EMA smoothing factor 2/(period+1).
(The source raises for period <= 0; it is only ever called with the positive
periods 200, 12, 26 and 9.) -/
def alpha (period : ℕ) : ℚ :=
  2 / ((period : ℚ) + 1)

/-- app/domain/indicators.py _ema_seed_or_update: seed by SMA until the buffer
reaches the period, then the standard EMA recurrence. -/
def emaSeedOrUpdate (close : ℚ) (period : ℕ) (prevEma : Option ℚ)
    (seedBuff : List ℚ) : Option ℚ × List ℚ :=
  match prevEma with
  | none =>
    let sb := seedBuff ++ [close]
    if sb.length < period then (none, sb)
    else if sb.length = period then (some (sb.sum / (period : ℚ)), [])
    else
      -- fall through to the standard update with prev_ema None: the
      -- (prev_ema if prev_ema is not None else close) fallback yields close
      let a := alpha period
      (some (a * close + (1 - a) * close), sb)
  | some v =>
    let a := alpha period
    (some (a * close + (1 - a) * v), seedBuff)

/-- app/domain/indicators.py EmaState. -/
structure EmaState where
  period : ℕ
  value : Option ℚ
  seed : List ℚ
deriving DecidableEq

/-- EmaState.empty. -/
def EmaState.empty (period : ℕ) : EmaState :=
  ⟨period, none, []⟩

/-- EmaState.update. -/
def EmaState.update (s : EmaState) (close : ℚ) : EmaState :=
  let r := emaSeedOrUpdate close s.period s.value s.seed
  ⟨s.period, r.1, r.2⟩

/-- app/domain/indicators.py MacdState (12, 26, 9). -/
structure MacdState where
  ema12 : EmaState
  ema26 : EmaState
  signal9 : EmaState
deriving DecidableEq

/-- MacdState.empty. -/
def MacdState.empty : MacdState :=
  ⟨EmaState.empty 12, EmaState.empty 26, EmaState.empty 9⟩

/-- MacdState.update: returns (new_state, macd, signal, histogram). -/
def MacdState.update (s : MacdState) (close : ℚ) :
    MacdState × Option ℚ × Option ℚ × Option ℚ :=
  let newEma12 := s.ema12.update close
  let newEma26 := s.ema26.update close
  let macdV : Option ℚ :=
    match newEma12.value, newEma26.value with
    | some a, some b => some (a - b)
    | _, _ => none
  let newSignal : EmaState :=
    match macdV with
    | none => s.signal9
    | some m => s.signal9.update m
  let histogramV : Option ℚ :=
    match macdV, newSignal.value with
    | some m, some sv => some (m - sv)
    | _, _ => none
  (⟨newEma12, newEma26, newSignal⟩, macdV, newSignal.value, histogramV)

/-- app/domain/indicators.py AtrState (Wilder). -/
structure AtrState where
  period : ℕ
  value : Option ℚ
  prevClose : Option ℚ
  seed : List ℚ
deriving DecidableEq

/-- AtrState.empty. -/
def AtrState.empty (period : ℕ := 14) : AtrState :=
  ⟨period, none, none, []⟩

/-- AtrState.update: true range with gap-awareness, SMA seeding, then
Wilder smoothing. -/
def AtrState.update (s : AtrState) (high low close : ℚ) : AtrState :=
  let tr : ℚ :=
    match s.prevClose with
    | none => max 0 (high - low)
    | some pc => max (high - low) (max |high - pc| |low - pc|)
  match s.value with
  | none =>
    let sd := s.seed ++ [tr]
    if sd.length < s.period then ⟨s.period, none, some close, sd⟩
    else ⟨s.period, some (sd.sum / (s.period : ℚ)), some close, []⟩
  | some v =>
    ⟨s.period, some ((v * ((s.period : ℚ) - 1) + tr) / (s.period : ℚ)), some close, []⟩

/-- app/domain/indicators.py IndicatorsSnapshot. -/
structure IndicatorsSnapshot where
  ema200 : Option ℚ
  macd : Option ℚ
  signal : Option ℚ
  histogram : Option ℚ
  atr14 : Option ℚ
  barsUntilReadyEma200 : ℤ
  barsUntilReadyMacdHistogram : ℤ
  barsUntilReadyAtr14 : ℤ
  lastHistogramValues : List (Option ℚ)
deriving DecidableEq

/-- app/domain/strategy.py compute_bias. -/
def computeBias (close : ℚ) (ema200 : Option ℚ) : Bias :=
  match ema200 with
  | none => Bias.NONE
  | some e =>
    if close > e then Bias.BULLISH
    else if close < e then Bias.BEARISH
    else Bias.NONE

/-- app/domain/strategy.py is_doji. -/
def isDoji (c : Candle) (dojiRat : ℚ) : Bool :=
  let range := max (c.high - c.low) 0
  let body := |c.close - c.open_|
  if range = 0 then body = 0 else body ≤ dojiRat * range

/-- Helper for strictly_monotonic: walk the tail comparing with prev. -/
def smGo (increasing : Bool) : ℚ → List ℚ → Bool
  | _, [] => true
  | prev, v :: rest =>
    if increasing then
      if v > prev then smGo increasing v rest else false
    else
      if v < prev then smGo increasing v rest else false

/-- app/domain/strategy.py strictly_monotonic (empty input is False). -/
def strictlyMonotonic (values : List ℚ) (increasing : Bool) : Bool :=
  match values with
  | [] => false
  | v :: rest => smGo increasing v rest

/-- app/domain/strategy.py is_bear (local helper in detect_pattern_and_signal). -/
def isBear (c : Candle) : Bool :=
  c.close < c.open_

/-- app/domain/strategy.py is_bull. -/
def isBull (c : Candle) : Bool :=
  c.close > c.open_

/-- app/domain/strategy.py detect_pattern_and_signal. The two deques have
maxlen 4 and the source returns None for fewer than 4 entries, so only the
exactly-4 shape can produce a signal. -/
def detectPatternAndSignal (symbol : ℕ) (timeframeMinutes : ℤ)
    (window4 : List Candle) (snaps4 : List IndicatorsSnapshot)
    (dojiRat : ℚ) (isLiveBar : Bool) : Option Signal :=
  match window4, snaps4 with
  | [c1, c2, c3, c4], [s1, s2, s3, s4] =>
    -- indicators must be ready across the window
    if s1.ema200.isNone ∨ s1.histogram.isNone ∨ s2.ema200.isNone ∨ s2.histogram.isNone ∨
       s3.ema200.isNone ∨ s3.histogram.isNone ∨ s4.ema200.isNone ∨ s4.histogram.isNone then
      none
    else
      let bias := computeBias c4.close s4.ema200
      if bias = Bias.NONE then none
      else
        let closes := [c1.close, c2.close, c3.close, c4.close]
        match s1.histogram, s2.histogram, s3.histogram, s4.histogram with
        | some h1, some h2, some h3, some h4 =>
          let histValues := [h1, h2, h3, h4]
          let dojiCount := List.countP (fun c => isDoji c dojiRat) [c2, c3, c4]
          if dojiCount > 1 then none
          else if bias = Bias.BULLISH then
            if isBear c1 then
              if List.countP (fun x => !(isDoji x dojiRat) && !(isBull x)) [c2, c3, c4] > 0 then none
              else if strictlyMonotonic closes true then
                if strictlyMonotonic histValues true then
                  some ⟨symbol, SignalSide.BUY, c4.timeUtc, timeframeMinutes, bias,
                        none, none, none, isLiveBar⟩
                else none
              else none
            else none
          else
            if isBull c1 then
              if List.countP (fun x => !(isDoji x dojiRat) && !(isBear x)) [c2, c3, c4] > 0 then none
              else if strictlyMonotonic closes false then
                if strictlyMonotonic histValues false then
                  some ⟨symbol, SignalSide.SELL, c4.timeUtc, timeframeMinutes, bias,
                        none, none, none, isLiveBar⟩
                else none
              else none
            else none
        | _, _, _, _ => none
  | _, _ => none

/-- collections.deque with maxlen 4: append on the right, drop from the left. -/
def push4 {α : Type} (l : List α) (a : α) : List α :=
  let m := l ++ [a]
  m.drop (m.length - 4)

/-- app/services/indicators.py _InternalState (the service is instantiated
with the default histogram_window of 4). -/
structure SvcState where
  ema200 : EmaState
  macd : MacdState
  atr14 : AtrState
  nCloses : ℕ
  lastHistogram : List (Option ℚ)
deriving DecidableEq

/-- IndicatorsService.__init__ state. -/
def SvcState.empty : SvcState :=
  ⟨EmaState.empty 200, MacdState.empty, AtrState.empty 14, 0, []⟩

/-- app/services/indicators.py IndicatorsService._consume_candle. -/
def consumeCandle (st : SvcState) (c : Candle) : SvcState × IndicatorsSnapshot :=
  let nCloses := st.nCloses + 1
  let nEma200 := st.ema200.update c.close
  let m := st.macd.update c.close
  let nAtr14 := st.atr14.update c.high c.low c.close
  let lastHistogram := push4 st.lastHistogram m.2.2.2
  let barsUntilEma200 : ℤ := max 0 (200 - (nCloses : ℤ))
  let barsUntilHistogram : ℤ := max 0 (35 - (nCloses : ℤ))
  let barsUntilAtr14 : ℤ :=
    match nAtr14.value with
    | none => max 0 ((nAtr14.period : ℤ) - (nAtr14.seed.length : ℤ))
    | some _ => 0
  (⟨nEma200, m.1, nAtr14, nCloses, lastHistogram⟩,
   ⟨nEma200.value, m.2.1, m.2.2.1, m.2.2.2, nAtr14.value,
    barsUntilEma200, barsUntilHistogram, barsUntilAtr14, lastHistogram⟩)

/-- Feed a list of candles through the indicators service, collecting the
per-candle snapshots (on_closed_candle called in sequence). -/
def svcRun : SvcState → List Candle → SvcState × List IndicatorsSnapshot
  | st, [] => (st, [])
  | st, c :: cs =>
    let r := consumeCandle st c
    let rest := svcRun r.1 cs
    (rest.1, r.2 :: rest.2)

/-- Fold a list of closes through EmaState.update. -/
def emaFeed (e : EmaState) (xs : List ℚ) : EmaState :=
  xs.foldl EmaState.update e

/-- Fold a list of closes through MacdState.update, keeping the state. -/
def macdFeed (m : MacdState) (xs : List ℚ) : MacdState :=
  xs.foldl (fun s x => (s.update x).1) m

/-- Fold a list of (high, low, close) bars through AtrState.update. -/
def atrFeed (a : AtrState) (bars : List (ℚ × ℚ × ℚ)) : AtrState :=
  bars.foldl (fun s b => s.update b.1 b.2.1 b.2.2) a

/-- app/services/risk.py RiskService._floor_to_step. -/
def floorToStep (lot step : ℚ) : ℚ :=
  if step ≤ 0 then lot else (⌊lot / step⌋ : ℚ) * step

/-- app/services/risk.py RiskService._decimals_from_step: the step is
formatted with ten decimal places, trailing zeros are stripped, and the
remaining decimals are counted. -/
def decimalsFromStep (step : ℚ) : ℕ :=
  let m := halfEvenInt (step * 10 ^ 10)
  if m = 0 then 0 else 10 - tzCount 10 m

/-- The step-down while loop inside RiskService.compute_lot, with explicit
fuel (the Python loop is an unbounded while; on the inputs considered in the
theorems below it performs no iteration, so the result does not depend on
the fuel). Returns (lot, risk_used). -/
def stepDownLoop : ℕ → ℚ → ℚ → ℚ → ℚ → ℚ → ℚ → ℚ × ℚ
  | 0, lot, riskUsed, _, _, _, _ => (lot, riskUsed)
  | fuel + 1, lot, riskUsed, riskTarget, riskPerLot, minLot, lotStep =>
    if lot > minLot ∧ riskUsed > riskTarget + 1 / 10 ^ 9 then
      let lot2 := pyRound (lot - lotStep) 8
      if lot2 < minLot then (minLot, riskUsed)
      else stepDownLoop fuel lot2 (lot2 * riskPerLot) riskTarget riskPerLot minLot lotStep
    else (lot, riskUsed)

/-- app/services/risk.py RiskService.compute_lot (risk_percentage is the
service's field; fuel bounds the step-down loop). -/
def computeLot (fuel : ℕ) (riskPercentage balance entryPrice stopLoss : ℚ)
    (meta : SymbolMeta) : ℚ × ℚ :=
  let riskTarget := max 0 (balance * riskPercentage)
  if riskTarget ≤ 0 then (0, 0)
  else
    let priceDiff := |entryPrice - stopLoss|
    let ticks := if meta.tickSize > 0 then priceDiff / meta.tickSize else 0
    let riskPerLot := ticks * meta.tickValue
    if riskPerLot ≤ 0 then (0, 0)
    else
      let rawLot := riskTarget / riskPerLot
      let lot0 := floorToStep rawLot meta.lotStep
      let lot1 := max lot0 meta.minLot
      let r := stepDownLoop fuel lot1 (lot1 * riskPerLot) riskTarget riskPerLot
        meta.minLot meta.lotStep
      let digits := decimalsFromStep meta.lotStep
      (pyRound r.1 digits, r.2)

/-- app/services/risk.py RiskService.compute_be_covering_commission. -/
def computeBeCoveringCommission (side : SignalSide) (entry lot : ℚ) (_digits : ℕ)
    (tickValue tickSize : ℚ) (commissionPerLot : Option ℚ) (isRoundTrip : Bool) : ℚ :=
  let perSide := commissionPerLot.getD 0
  let total0 := perSide * lot
  let totalCommission := if isRoundTrip then total0 * 2 else total0
  let pnlPerUnit := lot * (tickValue / tickSize)
  if pnlPerUnit ≤ 0 then entry
  else
    let offset := totalCommission / pnlPerUnit
    match side with
    | SignalSide.BUY => entry + offset
    | SignalSide.SELL => entry - offset

/-- app/config/settings.py be_trigger_price. -/
inductive BeTrigger where
  | close
  | hl
deriving DecidableEq

/-- app/config/settings.py take_profit_mode. -/
inductive TakeProfitMode where
  | fixed
  | trail
  | hybrid
deriving DecidableEq

/-- The Settings fields consulted by the position guard SL management. -/
structure GuardSettings where
  beTriggerPrice : BeTrigger
  takeProfitMode : TakeProfitMode
  commissionPerLot : Option ℚ
  atrTrailMultiplier : ℚ
deriving DecidableEq

/-- app/adapters/mt5_client.py OpenPosition together with the sl/tp fields
read by the guard (pos.sl, pos.tp may be absent). -/
structure GuardPosition where
  ticket : ℤ
  side : SignalSide
  lot : ℚ
  priceOpen : ℚ
  sl : Option ℚ
  tp : Option ℚ
deriving DecidableEq

/-- app/services/position_guard.py PositionGuardService._manage_breakeven:
returns the (sl, tp) request passed to modify_position_sl_tp, or none when
the method returns without modifying. -/
def manageBreakeven (settings : GuardSettings) (meta : SymbolMeta)
    (pos : GuardPosition) (candle : Candle) : Option (ℚ × Option ℚ) :=
  match pos.sl with
  | none => none
  | some currentSl =>
    if currentSl = 0 then none
    else
      let entry := pos.priceOpen
      let riskDistance := |entry - currentSl|
      if riskDistance ≤ 0 then none
      else
        let triggered :=
          match settings.beTriggerPrice with
          | BeTrigger.close =>
            let move := match pos.side with
              | SignalSide.BUY => candle.close - entry
              | SignalSide.SELL => entry - candle.close
            decide (move / riskDistance ≥ 1)
          | BeTrigger.hl =>
            match pos.side with
            | SignalSide.BUY => decide (candle.high ≥ entry + riskDistance)
            | SignalSide.SELL => decide (candle.low ≤ entry - riskDistance)
        if !triggered then none
        else
          let bePrice := computeBeCoveringCommission pos.side entry pos.lot meta.digits
            meta.tickValue meta.tickSize settings.commissionPerLot true
          let minDistance := (meta.stopsLevel : ℚ) * meta.tickSize
          match pos.side with
          | SignalSide.BUY =>
            let cand0 := max currentSl bePrice
            let cand1 := if candle.close - cand0 < minDistance then candle.close - minDistance else cand0
            let candidateSl := pyRound cand1 meta.digits
            if candidateSl ≤ currentSl then none
            else
              let newTp := if settings.takeProfitMode = TakeProfitMode.trail then none else pos.tp
              some (candidateSl, newTp)
          | SignalSide.SELL =>
            let cand0 := min currentSl bePrice
            let cand1 := if cand0 - candle.close < minDistance then candle.close + minDistance else cand0
            let candidateSl := pyRound cand1 meta.digits
            if candidateSl ≥ currentSl then none
            else
              let newTp := if settings.takeProfitMode = TakeProfitMode.trail then none else pos.tp
              some (candidateSl, newTp)

/-- app/services/position_guard.py PositionGuardService._manage_trailing_sl:
beArmedAt is the _be_armed_at_utc timestamp (epoch), atr14 the snapshot's ATR.
Returns the (sl, tp) request passed to modify_position_sl_tp, or none. -/
def manageTrailingSl (settings : GuardSettings) (meta : SymbolMeta)
    (pos : GuardPosition) (candle : Candle) (beArmedAt : Option ℤ)
    (atr14 : Option ℚ) : Option (ℚ × Option ℚ) :=
  if settings.takeProfitMode = TakeProfitMode.fixed then none
  else
    match beArmedAt with
    | none => none
    | some armed =>
      if candle.timeUtc ≤ armed then none
      else
        match atr14 with
        | none => none
        | some atr =>
          match pos.sl with
          | none => none
          | some currentSl =>
            if currentSl = 0 then none
            else
              let entry := pos.priceOpen
              if settings.atrTrailMultiplier ≤ 0 then none
              else
                let trailDistance := atr * settings.atrTrailMultiplier
                let minDistance := (meta.stopsLevel : ℚ) * meta.tickSize
                let bePrice := computeBeCoveringCommission pos.side entry pos.lot meta.digits
                  meta.tickValue meta.tickSize settings.commissionPerLot true
                match pos.side with
                | SignalSide.BUY =>
                  let cand0 := max bePrice (candle.close - trailDistance)
                  let cand1 := if candle.close - cand0 < minDistance
                    then max bePrice (candle.close - minDistance) else cand0
                  let candidateSl := pyRound cand1 meta.digits
                  if candidateSl ≤ currentSl ∨ candidateSl - currentSl < meta.tickSize then none
                  else
                    let newTp := if settings.takeProfitMode = TakeProfitMode.trail then none else pos.tp
                    some (candidateSl, newTp)
                | SignalSide.SELL =>
                  let cand0 := min bePrice (candle.close + trailDistance)
                  let cand1 := if cand0 - candle.close < minDistance
                    then min bePrice (candle.close + minDistance) else cand0
                  let candidateSl := pyRound cand1 meta.digits
                  if candidateSl ≥ currentSl ∨ currentSl - candidateSl < meta.tickSize then none
                  else
                    let newTp := if settings.takeProfitMode = TakeProfitMode.trail then none else pos.tp
                    some (candidateSl, newTp)

/-- app/infra/clock.py local datetimes: day is a day number whose residue
mod 7 is the Python weekday() (0 = Monday ... 6 = Sunday); hour, minute,
second are the local time-of-day fields. -/
structure LocalDT where
  day : ℤ
  hour : ℤ
  minute : ℤ
  second : ℤ
deriving DecidableEq

/-- Total seconds since the (arbitrary) day-0 midnight; datetimes with
in-range fields compare exactly like Python datetime comparison. -/
def LocalDT.toSec (dt : LocalDT) : ℤ :=
  ((dt.day * 24 + dt.hour) * 60 + dt.minute) * 60 + dt.second

/-- app/infra/clock.py is_weekday: Monday=0 ... Sunday=6, weekday < 5. -/
def isWeekday (dt : LocalDT) : Bool :=
  dt.day % 7 < 5

/-- app/infra/clock.py SessionWindow (hours in local time). -/
structure SessionWindow where
  startHour : ℤ
  endHour : ℤ
deriving DecidableEq

/-- app/infra/clock.py _is_overnight. -/
def isOvernight (w : SessionWindow) : Bool :=
  w.endHour ≤ w.startHour

/-- dt - timedelta(days=1). -/
def LocalDT.subDay (dt : LocalDT) : LocalDT :=
  ⟨dt.day - 1, dt.hour, dt.minute, dt.second⟩

/-- dt.replace(hour=h, minute=0, second=0, microsecond=0). -/
def LocalDT.replaceHour (dt : LocalDT) (h : ℤ) : LocalDT :=
  ⟨dt.day, h, 0, 0⟩

/-- app/infra/clock.py in_session. -/
def inSession (dt : LocalDT) (w : SessionWindow) : Bool :=
  if !isOvernight w then
    isWeekday dt && decide (w.startHour ≤ dt.hour ∧ dt.hour < w.endHour)
  else
    if isWeekday dt && decide (dt.hour ≥ w.startHour) then true
    else isWeekday dt.subDay && decide (dt.hour < w.endHour)

/-- The while loop in session_start_for that walks back day by day until a
weekday is reached (terminates because weekend runs have length 2). -/
def prevWeekdayDay (day : ℤ) : ℤ :=
  if day % 7 < 5 then day else prevWeekdayDay (day - 1)
termination_by (day % 7).toNat
decreasing_by
  simp_wf
  omega

/-- app/infra/clock.py session_start_for. -/
def sessionStartFor (dt : LocalDT) (w : SessionWindow) : Option LocalDT :=
  if !inSession dt w then none
  else if !isOvernight w then some (dt.replaceHour w.startHour)
  else if isWeekday dt && decide (dt.hour ≥ w.startHour) then
    some (dt.replaceHour w.startHour)
  else
    some ⟨prevWeekdayDay (dt.day - 1), w.startHour, 0, 0⟩

/-- The while loop in _next_weekday_start that walks forward day by day
until a weekday is reached. -/
def nextWeekdayDay (day : ℤ) : ℤ :=
  if day % 7 < 5 then day else nextWeekdayDay (day + 1)
termination_by ((7 - day % 7) % 7).toNat
decreasing_by
  simp_wf
  omega

/-- app/infra/clock.py _next_weekday_start. -/
def nextWeekdayStart (after : LocalDT) (w : SessionWindow) : LocalDT :=
  ⟨nextWeekdayDay (after.day + 1), w.startHour, 0, 0⟩

/-- app/infra/clock.py next_session_start. -/
def nextSessionStart (dt : LocalDT) (w : SessionWindow) : LocalDT :=
  match sessionStartFor dt w with
  | some startOfCurrent => nextWeekdayStart startOfCurrent w
  | none =>
    if !isOvernight w then
      let todayStart := dt.replaceHour w.startHour
      if isWeekday dt && decide (dt.toSec < todayStart.toSec) then todayStart
      else nextWeekdayStart dt w
    else
      let todayStart := dt.replaceHour w.startHour
      if isWeekday dt && decide (dt.toSec < todayStart.toSec) then todayStart
      else if isWeekday dt && decide (w.endHour ≤ dt.hour ∧ dt.hour < w.startHour) then todayStart
      else nextWeekdayStart dt w

/-- app/adapters/mt5_client.py get_backfill_candles: range check, filter to
(since, until], then a stable sort ascending by time (Python list.sort with
the epoch-seconds key; modeled by insertion sort, which is also stable).
The raw terminal rows are given already parsed as candles. -/
def getBackfillCandles (sinceExclusiveEpoch untilInclusiveEpoch : ℤ)
    (rates : List Candle) : List Candle :=
  if untilInclusiveEpoch ≤ sinceExclusiveEpoch then []
  else
    let candles := rates.filter
      (fun r => decide (sinceExclusiveEpoch < r.epoch ∧ r.epoch ≤ untilInclusiveEpoch))
    List.insertionSort (fun a b => a.epoch ≤ b.epoch) candles

/-- Static wiring of CandleMonitorService (symbol, timeframe minutes, and the
SignalService doji ratio); the indicators, signals, guard, planner and
executor collaborators are all wired (non-None). -/
structure MonParams where
  symbol : ℕ
  tfMin : ℤ
  dojiRat : ℚ
deriving DecidableEq

/-- Mutable state of CandleMonitorService after the first run (cursor set):
_last_seen_epoch, _candles_4, the IndicatorsService state and the
SignalService sliding buffers. -/
structure MonState where
  lastSeen : ℤ
  candles4 : List Candle
  svc : SvcState
  sigCandles : List Candle
  sigSnaps : List IndicatorsSnapshot
deriving DecidableEq

/-- One process_once interaction with the Market Gateway: the initial
get_last_closed_candle response, the successive responses observed by the
bounded hydration retry loop (list length = HYDRATE_MAX_RETRIES), and the
get_backfill_candles responses as a function of the requested interval. -/
structure Gateway where
  latest : Option Candle
  retries : List (Option Candle)
  backfill : ℤ → ℤ → List Candle

/-- External trading gates consulted by _maybe_emit_signal: guard position /
freeze state and whether the order planner accepts the plan (the planner and
executor themselves are outside the scope of the pipeline claims; only
whether they are reached is tracked). -/
structure TradeEnv where
  hasOpenPosition : Bool
  inFreeze : Bool
  planOk : Bool
deriving DecidableEq

/-- Result of one _maybe_emit_signal call: the detected signal (if any) and
whether the order planner / executor calls were reached. -/
structure EmitResult where
  signal : Option Signal
  plannerInvoked : Bool
  executorInvoked : Bool
deriving DecidableEq

/-- One candle handed downstream by the pipeline: the candle, the is_live
flag it was fed with, the cursor value right after the bar was handled,
whether the guard's on_closed_candle ran (guard wired and snapshot present),
and the _maybe_emit_signal outcome. -/
structure FeedEvent where
  candle : Candle
  isLive : Bool
  cursorAfter : ℤ
  guardFed : Bool
  signal : Option Signal
  plannerInvoked : Bool
  executorInvoked : Bool
deriving DecidableEq

/-- app/services/candle_monitor.py _maybe_emit_signal together with
SignalService.on_closed: append to the sliding buffers, run the detector on
the last 4, and proceed to planning/execution only for LIVE signals that
pass the guard gates. Returns the updated SignalService buffers and the
outcome. -/
def maybeEmitSignal (P : MonParams) (sigCandles : List Candle)
    (sigSnaps : List IndicatorsSnapshot) (candles4 : List Candle)
    (candle : Candle) (snapshot : Option IndicatorsSnapshot) (isLiveBar : Bool)
    (env : TradeEnv) : (List Candle × List IndicatorsSnapshot) × EmitResult :=
  match snapshot with
  | none => ((sigCandles, sigSnaps), ⟨none, false, false⟩)
  | some snap =>
    let cs := push4 sigCandles candle
    let ss := push4 sigSnaps snap
    let sig : Option Signal :=
      if cs.length < 4 then none
      else detectPatternAndSignal P.symbol P.tfMin cs ss P.dojiRat isLiveBar
    match sig with
    | none => ((cs, ss), ⟨none, false, false⟩)
    | some g =>
      if !g.isLive then ((cs, ss), ⟨some g, false, false⟩)
      else if env.hasOpenPosition then ((cs, ss), ⟨some g, false, false⟩)
      else if env.inFreeze then ((cs, ss), ⟨some g, false, false⟩)
      else if candles4.length < 4 then ((cs, ss), ⟨some g, false, false⟩)
      else if !env.planOk then ((cs, ss), ⟨some g, true, false⟩)
      else ((cs, ss), ⟨some g, true, true⟩)

/-- The per-candle body of the backfill loops in _process_symbol: log the
candle, append it to _candles_4, advance the cursor, update the indicators,
run the guard on the closed candle and evaluate _maybe_emit_signal. -/
def feedCandle (P : MonParams) (st : MonState) (candle : Candle)
    (isLive : Bool) (env : TradeEnv) : MonState × FeedEvent :=
  let candles4 := push4 st.candles4 candle
  let r := consumeCandle st.svc candle
  let snapshot : Option IndicatorsSnapshot := some r.2
  let m := maybeEmitSignal P st.sigCandles st.sigSnaps candles4 candle snapshot
    isLive env
  (⟨candle.epoch, candles4, r.1, m.1.1, m.1.2⟩,
   ⟨candle, isLive, candle.epoch, snapshot.isSome, m.2.signal,
    m.2.plannerInvoked, m.2.executorInvoked⟩)

/-- Feed a backfill batch in list order; the bar whose epoch equals
latestEpoch is fed with is_live = true. -/
def feedList (P : MonParams) : MonState → List Candle → ℤ → TradeEnv →
    MonState × List FeedEvent
  | st, [], _, _ => (st, [])
  | st, c :: rest, latestEpoch, env =>
    let r := feedCandle P st c (c.epoch == latestEpoch) env
    let k := feedList P r.1 rest latestEpoch env
    (k.1, r.2 :: k.2)

/-- The bounded hydration retry loop of the latest-epoch ≤ cursor branch of
_process_symbol: re-fetch the latest closed candle up to
HYDRATE_MAX_RETRIES times; on a newer epoch, backfill (prev, new] and stop;
on a fetch failure, stop. -/
def hydrateRetryLoop (P : MonParams) : MonState → List (Option Candle) → ℤ →
    (ℤ → ℤ → List Candle) → TradeEnv → MonState × List FeedEvent
  | st, [], _, _, _ => (st, [])
  | st, none :: _, _, _, _ => (st, [])
  | st, some newLastClosed :: rest, prevEpoch, backfill, env =>
    if prevEpoch < newLastClosed.epoch then
      match backfill prevEpoch newLastClosed.epoch with
      | [] =>
        let r := feedCandle P st newLastClosed true env
        (r.1, [r.2])
      | c :: cs => feedList P st (c :: cs) newLastClosed.epoch env
    else hydrateRetryLoop P st rest prevEpoch backfill env

/-- app/services/candle_monitor.py _process_symbol, restricted to the
steady-state case where the cursor _last_seen_epoch is already set (the
first-run bootstrap branch, lines 84-140, is outside the scope of the
pipeline claims). -/
def processOnceSeen (P : MonParams) (st : MonState) (gw : Gateway)
    (env : TradeEnv) : MonState × List FeedEvent :=
  match gw.latest with
  | none => (st, [])
  | some lastClosed =>
    if lastClosed.epoch ≤ st.lastSeen then
      hydrateRetryLoop P st gw.retries st.lastSeen gw.backfill env
    else
      match gw.backfill st.lastSeen lastClosed.epoch with
      | [] =>
        let r := feedCandle P st lastClosed true env
        (r.1, [r.2])
      | c :: cs => feedList P st (c :: cs) lastClosed.epoch env

/-! ## Helper lemmas -/

lemma emaFeed_nil (e : EmaState) : emaFeed e [] = e := rfl

lemma emaFeed_concat (e : EmaState) (xs : List ℚ) (x : ℚ) :
    emaFeed e (xs ++ [x]) = (emaFeed e xs).update x := by
  simp [emaFeed, List.foldl_append]

lemma ema_update_some (e : EmaState) (x : ℚ) (h : e.value.isSome = true) :
    (e.update x).value.isSome = true := by
  rcases hv : e.value with _ | v
  · rw [hv] at h; simp at h
  · simp [EmaState.update, emaSeedOrUpdate, hv]

lemma emaFeed_some (e : EmaState) (xs : List ℚ) (h : e.value.isSome = true) :
    (emaFeed e xs).value.isSome = true := by
  induction xs generalizing e with
  | nil => simpa [emaFeed] using h
  | cons x xs ih =>
    have : emaFeed e (x :: xs) = emaFeed (e.update x) xs := by simp [emaFeed]
    rw [this]
    exact ih _ (ema_update_some e x h)

/-- All three component EMAs of a MACD state are seeded; from such a state
every further update yields a present histogram. -/
def macdReady (m : MacdState) : Prop :=
  m.ema12.value.isSome = true ∧ m.ema26.value.isSome = true ∧
    m.signal9.value.isSome = true

lemma macd_hist_imp_ready (m : MacdState) (x : ℚ)
    (h : (m.update x).2.2.2.isSome = true) : macdReady (m.update x).1 := by
  rcases h12 : (m.ema12.update x).value with _ | a <;>
    rcases h26 : (m.ema26.update x).value with _ | b <;>
    simp [MacdState.update, macdReady, h12, h26] at h ⊢
  rcases hsv : (m.signal9.update (a - b)).value with _ | sv
  · rw [hsv] at h; simp at h
  · simp [hsv]

lemma macdReady_step (m : MacdState) (x : ℚ) (h : macdReady m) :
    macdReady (m.update x).1 ∧ (m.update x).2.2.2.isSome = true := by
  obtain ⟨h12, h26, h9⟩ := h
  have n12 := ema_update_some m.ema12 x h12
  have n26 := ema_update_some m.ema26 x h26
  rcases e12 : (m.ema12.update x).value with _ | a
  · rw [e12] at n12; simp at n12
  · rcases e26 : (m.ema26.update x).value with _ | b
    · rw [e26] at n26; simp at n26
    · have n9 := ema_update_some m.signal9 (a - b) h9
      rcases e9 : (m.signal9.update (a - b)).value with _ | sv
      · rw [e9] at n9; simp at n9
      · refine ⟨?_, ?_⟩ <;> simp [MacdState.update, macdReady, e12, e26, e9]

lemma macdFeed_ready (m : MacdState) (xs : List ℚ) (h : macdReady m) :
    macdReady (macdFeed m xs) := by
  induction xs generalizing m with
  | nil => simpa [macdFeed] using h
  | cons x xs ih =>
    have : macdFeed m (x :: xs) = macdFeed (m.update x).1 xs := by simp [macdFeed]
    rw [this]
    exact ih _ (macdReady_step m x h).1

lemma atr_update_some (a : AtrState) (hi lo cl : ℚ) (h : a.value.isSome = true) :
    (a.update hi lo cl).value.isSome = true := by
  rcases hv : a.value with _ | v
  · rw [hv] at h; simp at h
  · simp [AtrState.update, hv]

lemma atrFeed_some (a : AtrState) (bars : List (ℚ × ℚ × ℚ))
    (h : a.value.isSome = true) : (atrFeed a bars).value.isSome = true := by
  induction bars generalizing a with
  | nil => simpa [atrFeed] using h
  | cons b bs ih =>
    have : atrFeed a (b :: bs) = atrFeed (a.update b.1 b.2.1 b.2.2) bs := by
      simp [atrFeed]
    rw [this]
    exact ih _ (atr_update_some a b.1 b.2.1 b.2.2 h)

/-! ## C6: indicator readiness is append-only -/

/-- C6: once an indicator value is present it never reverts to absent under
further updates: a seeded EmaState stays seeded under any further closes, a
MACD update that produced a present histogram makes every later update
produce a present histogram, and a seeded AtrState stays seeded under any
further bars. -/
theorem c6_readiness_monotone (e : EmaState) (xs : List ℚ) (m : MacdState)
    (x y : ℚ) (ys : List ℚ) (a : AtrState) (bars : List (ℚ × ℚ × ℚ)) :
    (e.value.isSome = true → (emaFeed e xs).value.isSome = true) ∧
    ((m.update x).2.2.2.isSome = true →
      ((macdFeed (m.update x).1 ys).update y).2.2.2.isSome = true) ∧
    (a.value.isSome = true → (atrFeed a bars).value.isSome = true) := by
  refine ⟨fun h => emaFeed_some e xs h, fun h => ?_, fun h => atrFeed_some a bars h⟩
  have hr := macd_hist_imp_ready m x h
  have hr2 := macdFeed_ready (m.update x).1 ys hr
  exact (macdReady_step _ y hr2).2

/-- Witness for C6 at concrete states with present values. -/
theorem c6_readiness_monotone_witness :
    ((emaFeed ⟨200, some 5, []⟩ [1, 2]).value.isSome = true) ∧
    (((macdFeed (MacdState.update ⟨⟨12, some 1, []⟩, ⟨26, some 1, []⟩, ⟨9, some 0, []⟩⟩ 1).1
        [2, 3]).update 4).2.2.2.isSome = true) ∧
    ((atrFeed ⟨14, some 2, some 1, []⟩ [(3, 1, 2)]).value.isSome = true) := by
  have h := c6_readiness_monotone ⟨200, some 5, []⟩ [1, 2]
    ⟨⟨12, some 1, []⟩, ⟨26, some 1, []⟩, ⟨9, some 0, []⟩⟩ 1 4 [2, 3]
    ⟨14, some 2, some 1, []⟩ [(3, 1, 2)]
  exact ⟨h.1 (by decide), h.2.1 (by decide), h.2.2 (by decide)⟩

/-! ## C7: EMA seeding -/

lemma emaFeed_empty_replicate_lt (p : ℕ) (V : ℚ) (k : ℕ) (hk : k < p) :
    emaFeed (EmaState.empty p) (List.replicate k V) = ⟨p, none, List.replicate k V⟩ := by
  induction k with
  | zero => simp [emaFeed, EmaState.empty]
  | succ n ih =>
    rw [List.replicate_succ', emaFeed_concat, ih (by omega)]
    simp only [EmaState.update, emaSeedOrUpdate]
    rw [← List.replicate_succ']
    simp only [List.length_replicate]
    rw [if_pos hk]

/-- C7: from an empty EMA state of period p ≥ 1, feeding exactly p closes of
value V makes the first EMA value exactly V (the mean of the seed buffer),
while feeding only p - 1 closes leaves the value absent. -/
theorem c7_ema_seeding (p : ℕ) (V : ℚ) (hp : 1 ≤ p) :
    (emaFeed (EmaState.empty p) (List.replicate p V)).value = some V ∧
    (emaFeed (EmaState.empty p) (List.replicate (p - 1) V)).value = none := by
  constructor
  · obtain ⟨q, rfl⟩ : ∃ q, p = q + 1 := ⟨p - 1, by omega⟩
    rw [List.replicate_succ', emaFeed_concat,
      emaFeed_empty_replicate_lt (q + 1) V q (by omega)]
    simp only [EmaState.update, emaSeedOrUpdate]
    rw [← List.replicate_succ']
    simp only [List.length_replicate, lt_irrefl, if_false, if_pos rfl]
    rw [List.sum_replicate, nsmul_eq_mul]
    push_cast
    field_simp
  · rw [emaFeed_empty_replicate_lt p V (p - 1) (by omega)]

/-- Witness for C7 at p = 3, V = 7. -/
theorem c7_ema_seeding_witness :
    (emaFeed (EmaState.empty 3) (List.replicate 3 7)).value = some 7 ∧
    (emaFeed (EmaState.empty 3) (List.replicate (3 - 1) 7)).value = none :=
  c7_ema_seeding 3 7 (by norm_num)

/-! ## C1: 4-candle bullish pattern -/

/-- C1: with aligned snapshots whose EMA200 and histogram are present on all
four entries and the 4th close above its EMA200, the detector emits a BUY
signal stamped with the 4th candle's open time exactly when the first candle
is bearish, every non-doji among the last three is bullish with at most one
doji, and both the closes and the histogram values are strictly increasing;
flipping the first candle's color or either monotonicity yields nothing. -/
theorem c1_pattern_detector (symbol : ℕ) (tfMin : ℤ) (c1 c2 c3 c4 : Candle)
    (s1 s2 s3 s4 : IndicatorsSnapshot) (dojiRat : ℚ) (isLiveBar : Bool)
    (e1 e2 e3 e4 h1 h2 h3 h4 : ℚ)
    (he1 : s1.ema200 = some e1) (he2 : s2.ema200 = some e2)
    (he3 : s3.ema200 = some e3) (he4 : s4.ema200 = some e4)
    (hh1 : s1.histogram = some h1) (hh2 : s2.histogram = some h2)
    (hh3 : s3.histogram = some h3) (hh4 : s4.histogram = some h4)
    (hbias : e4 < c4.close) :
    ((isBear c1 = true ∧
      List.countP (fun x => !(isDoji x dojiRat) && !(isBull x)) [c2, c3, c4] = 0 ∧
      List.countP (fun c => isDoji c dojiRat) [c2, c3, c4] ≤ 1 ∧
      strictlyMonotonic [c1.close, c2.close, c3.close, c4.close] true = true ∧
      strictlyMonotonic [h1, h2, h3, h4] true = true) →
      detectPatternAndSignal symbol tfMin [c1, c2, c3, c4] [s1, s2, s3, s4] dojiRat isLiveBar =
        some ⟨symbol, SignalSide.BUY, c4.timeUtc, tfMin, Bias.BULLISH,
              none, none, none, isLiveBar⟩) ∧
    ((isBear c1 = false ∨
      strictlyMonotonic [c1.close, c2.close, c3.close, c4.close] true = false ∨
      strictlyMonotonic [h1, h2, h3, h4] true = false) →
      detectPatternAndSignal symbol tfMin [c1, c2, c3, c4] [s1, s2, s3, s4] dojiRat isLiveBar =
        none) := by
  have hb : computeBias c4.close (some e4) = Bias.BULLISH := by
    simp [computeBias, hbias]
  constructor
  · rintro ⟨hbear, hcolor, hdoji, hmc, hmh⟩
    have hdoji2 : ¬ (List.countP (fun c => isDoji c dojiRat) [c2, c3, c4] > 1) := by
      omega
    simp [detectPatternAndSignal, he1, he2, he3, he4, hh1, hh2, hh3, hh4, hb,
      hbear, hcolor, hdoji2, hmc, hmh]
  · rintro (h | h | h) <;>
      simp [detectPatternAndSignal, he1, he2, he3, he4, hh1, hh2, hh3, hh4, hb, h]

/-- Witness for C1: a concrete bullish window (bearish first candle, three
bullish candles, increasing closes and histograms, EMA200 below the 4th
close) produces a BUY signal on the 4th candle's open time. -/
theorem c1_pattern_detector_witness :
    detectPatternAndSignal 1 5
      [⟨0, 0, 11, 12, 9, 10, 1⟩, ⟨60, 60, 10, 12, 9, 11, 1⟩,
       ⟨120, 120, 11, 13, 10, 12, 1⟩, ⟨180, 180, 12, 14, 11, 13, 1⟩]
      [⟨some 5, none, none, some 1, none, 0, 0, 0, []⟩,
       ⟨some 5, none, none, some 2, none, 0, 0, 0, []⟩,
       ⟨some 5, none, none, some 3, none, 0, 0, 0, []⟩,
       ⟨some 5, none, none, some 4, none, 0, 0, 0, []⟩]
      (1/10) true =
      some ⟨1, SignalSide.BUY, 180, 5, Bias.BULLISH, none, none, none, true⟩ :=
  (c1_pattern_detector 1 5
    ⟨0, 0, 11, 12, 9, 10, 1⟩ ⟨60, 60, 10, 12, 9, 11, 1⟩
    ⟨120, 120, 11, 13, 10, 12, 1⟩ ⟨180, 180, 12, 14, 11, 13, 1⟩
    ⟨some 5, none, none, some 1, none, 0, 0, 0, []⟩
    ⟨some 5, none, none, some 2, none, 0, 0, 0, []⟩
    ⟨some 5, none, none, some 3, none, 0, 0, 0, []⟩
    ⟨some 5, none, none, some 4, none, 0, 0, 0, []⟩
    (1/10) true 5 5 5 5 1 2 3 4 rfl rfl rfl rfl rfl rfl rfl rfl (by norm_num)).1
    (by
      refine ⟨?_, ?_, ?_, ?_, ?_⟩ <;>
        norm_num [isDoji, isBear, isBull, strictlyMonotonic, smGo, List.countP,
          List.countP.go])

/-! ## C5: guard stop-loss moves only in the protective direction -/

/-- C5: whenever the break-even or trailing handler actually requests a stop
modification, the stop sent to modify_position_sl_tp is strictly greater
than the current stop for a long position and strictly less for a short
position (otherwise the handlers return without modifying). -/
theorem c5_guard_sl_protective (settings : GuardSettings) (meta : SymbolMeta)
    (pos : GuardPosition) (candle : Candle) (beArmedAt : Option ℤ)
    (atr14 : Option ℚ) (csl newSl : ℚ) (newTp : Option ℚ)
    (hsl : pos.sl = some csl)
    (h : manageBreakeven settings meta pos candle = some (newSl, newTp) ∨
      manageTrailingSl settings meta pos candle beArmedAt atr14 = some (newSl, newTp)) :
    (pos.side = SignalSide.BUY → csl < newSl) ∧
    (pos.side = SignalSide.SELL → newSl < csl) := by
  rcases h with h | h
  · simp only [manageBreakeven, hsl] at h
    repeat' split at h
    all_goals simp_all
  · simp only [manageTrailingSl, hsl] at h
    repeat' split at h
    all_goals simp_all

/-- Witness for C5: a long position with entry 100 and stop 95, after a close
at 106 (at least +1R), gets its stop moved up to the commission-aware
break-even 100 > 95. -/
theorem c5_guard_sl_protective_witness :
    ((⟨7, SignalSide.BUY, 1, 100, some 95, none⟩ : GuardPosition).side = SignalSide.BUY →
      (95 : ℚ) < 100) ∧
    ((⟨7, SignalSide.BUY, 1, 100, some 95, none⟩ : GuardPosition).side = SignalSide.SELL →
      (100 : ℚ) < 95) :=
  c5_guard_sl_protective ⟨BeTrigger.close, TakeProfitMode.fixed, none, 8/10⟩
    ⟨0, 2, 1/100, 1, 1/100, 1/100, 10, 0⟩ ⟨7, SignalSide.BUY, 1, 100, some 95, none⟩
    ⟨0, 0, 100, 107, 99, 106, 1⟩ none none 95 100 none rfl
    (Or.inl (by
      norm_num [manageBreakeven, computeBeCoveringCommission, pyRound, halfEvenInt]))

/-! ## C8: the 07:00-03:00 Asia/Jakarta session window -/

/-- C8 counterexample: a Monday (weekday) timestamp at 02:00 local is NOT in
session for the overnight 07:00-03:00 window, because the early-morning part
belongs to the previous calendar day and Sunday is not a weekday; this
refutes the claim for arbitrary weekdays. Day 7 has weekday residue 0
(Monday). -/
theorem c8_session_counterexample :
    isWeekday ⟨7, 2, 0, 0⟩ = true ∧ inSession ⟨7, 2, 0, 0⟩ ⟨7, 3⟩ = false := by
  decide

lemma prevWeekdayDay_weekday (d : ℤ) (h : d % 7 < 5) : prevWeekdayDay d = d := by
  rw [prevWeekdayDay]
  simp [h]

/-- C8 amended: for the 07:00-03:00 window, a 02:00 local timestamp on a
weekday whose previous calendar day is also a weekday (i.e. Tuesday-Friday)
is in session and its session start is the previous day at 07:00; a 02:00
Monday is in no session (see the counterexample). A weekday timestamp at
04:00 local is in no session and the next session start is the same local
day at 07:00. -/
theorem c8_session_amended (d : ℤ) :
    (isWeekday ⟨d, 2, 0, 0⟩ = true → isWeekday ⟨d - 1, 2, 0, 0⟩ = true →
      inSession ⟨d, 2, 0, 0⟩ ⟨7, 3⟩ = true ∧
      sessionStartFor ⟨d, 2, 0, 0⟩ ⟨7, 3⟩ = some ⟨d - 1, 7, 0, 0⟩) ∧
    (isWeekday ⟨d, 4, 0, 0⟩ = true →
      inSession ⟨d, 4, 0, 0⟩ ⟨7, 3⟩ = false ∧
      nextSessionStart ⟨d, 4, 0, 0⟩ ⟨7, 3⟩ = ⟨d, 7, 0, 0⟩) := by
  constructor
  · intro h1 h2
    simp only [isWeekday, decide_eq_true_eq] at h1 h2
    have hin : inSession ⟨d, 2, 0, 0⟩ ⟨7, 3⟩ = true := by
      simp [inSession, isOvernight, isWeekday, LocalDT.subDay, h2]
    refine ⟨hin, ?_⟩
    simp only [sessionStartFor, hin, Bool.not_true, Bool.false_eq_true, if_false]
    rw [if_neg (by norm_num [isOvernight]), if_neg (by simp [isWeekday]),
      prevWeekdayDay_weekday (d - 1) h2]
  · intro h1
    simp only [isWeekday, decide_eq_true_eq] at h1
    have hin : inSession ⟨d, 4, 0, 0⟩ ⟨7, 3⟩ = false := by
      simp [inSession, isOvernight, isWeekday, LocalDT.subDay]
    refine ⟨hin, ?_⟩
    have hstart : sessionStartFor ⟨d, 4, 0, 0⟩ ⟨7, 3⟩ = none := by
      simp [sessionStartFor, hin]
    simp only [nextSessionStart, hstart]
    rw [if_neg (by norm_num [isOvernight]),
      if_pos (by simp [isWeekday, LocalDT.replaceHour, LocalDT.toSec, h1])]
    rfl

/-- Witness for C8 amended at d = 1 (Tuesday, previous day Monday). -/
theorem c8_session_amended_witness :
    (inSession ⟨1, 2, 0, 0⟩ ⟨7, 3⟩ = true ∧
      sessionStartFor ⟨1, 2, 0, 0⟩ ⟨7, 3⟩ = some ⟨1 - 1, 7, 0, 0⟩) ∧
    (inSession ⟨1, 4, 0, 0⟩ ⟨7, 3⟩ = false ∧
      nextSessionStart ⟨1, 4, 0, 0⟩ ⟨7, 3⟩ = ⟨1, 7, 0, 0⟩) :=
  ⟨(c8_session_amended 1).1 (by decide) (by decide),
   (c8_session_amended 1).2 (by decide)⟩

/-! ## C3: unchanged gateway response means nothing is reprocessed -/

lemma hydrateRetryLoop_noop (P : MonParams) (st : MonState)
    (rs : List (Option Candle)) (seen : ℤ) (bff : ℤ → ℤ → List Candle)
    (env : TradeEnv)
    (hr : ∀ r ∈ rs, (Option.map Candle.epoch r).getD seen ≤ seen) :
    hydrateRetryLoop P st rs seen bff env = (st, []) := by
  induction rs with
  | nil => rfl
  | cons r rest ih =>
    cases r with
    | none => rfl
    | some c =>
      have hc : c.epoch ≤ seen := by
        simpa using hr (some c) (List.mem_cons_self _ _)
      rw [hydrateRetryLoop, if_neg (by omega)]
      exact ih (fun r hrm => hr r (List.mem_cons_of_mem _ hrm))

/-- C3: if the cursor holds epoch E = st.lastSeen, the gateway's latest
closed candle is still at an epoch ≤ E, and every response observed by the
bounded hydration retries is absent or still at an epoch ≤ E, then
process_once feeds nothing downstream and leaves the whole monitor state
(cursor included) unchanged: no previously seen epoch is reprocessed or
re-emitted. -/
theorem c3_pipeline_exactly_once (P : MonParams) (st : MonState) (gw : Gateway)
    (env : TradeEnv) (lc : Candle) (hl : gw.latest = some lc)
    (hle : lc.epoch ≤ st.lastSeen)
    (hr : ∀ r ∈ gw.retries, (Option.map Candle.epoch r).getD st.lastSeen ≤ st.lastSeen) :
    processOnceSeen P st gw env = (st, []) := by
  simp only [processOnceSeen, hl]
  rw [if_pos hle]
  exact hydrateRetryLoop_noop P st gw.retries st.lastSeen gw.backfill env hr

/-- Witness for C3: cursor at 100, latest still at 100, one retry returning
the same bar then a failed fetch: state unchanged, nothing fed. -/
theorem c3_pipeline_exactly_once_witness :
    processOnceSeen ⟨1, 5, 1/10⟩ ⟨100, [], SvcState.empty, [], []⟩
      ⟨some ⟨100, 100, 1, 1, 1, 1, 1⟩, [some ⟨100, 100, 1, 1, 1, 1, 1⟩, none],
       fun _ _ => []⟩ ⟨false, false, true⟩ =
      (⟨100, [], SvcState.empty, [], []⟩, []) :=
  c3_pipeline_exactly_once ⟨1, 5, 1/10⟩ ⟨100, [], SvcState.empty, [], []⟩
    ⟨some ⟨100, 100, 1, 1, 1, 1, 1⟩, [some ⟨100, 100, 1, 1, 1, 1, 1⟩, none],
     fun _ _ => []⟩ ⟨false, false, true⟩ ⟨100, 100, 1, 1, 1, 1, 1⟩ rfl
    (by decide) (by decide)

/-! ## C4: backfill gap recovery -/

set_option maxHeartbeats 2000000 in
lemma detectPatternAndSignal_isLive (symbol : ℕ) (tfMin : ℤ)
    (w : List Candle) (s : List IndicatorsSnapshot) (dojiRat : ℚ)
    (isLiveBar : Bool) (sig : Signal)
    (h : detectPatternAndSignal symbol tfMin w s dojiRat isLiveBar = some sig) :
    sig.isLive = isLiveBar := by
  unfold detectPatternAndSignal at h
  repeat' split at h
  all_goals try simp_all
  all_goals repeat (obtain ⟨-, h⟩ := h)
  all_goals repeat' split at h
  all_goals
    first
      | rfl
      | exact Option.noConfusion h
      | (injection h with hh; subst hh; rfl)

lemma maybeEmitSignal_notLive_gates (P : MonParams) (sigCandles : List Candle)
    (sigSnaps : List IndicatorsSnapshot) (candles4 : List Candle)
    (candle : Candle) (snapshot : Option IndicatorsSnapshot) (env : TradeEnv) :
    (maybeEmitSignal P sigCandles sigSnaps candles4 candle snapshot false env).2.plannerInvoked
      = false ∧
    (maybeEmitSignal P sigCandles sigSnaps candles4 candle snapshot false env).2.executorInvoked
      = false := by
  cases snapshot with
  | none => simp [maybeEmitSignal]
  | some snap =>
    simp only [maybeEmitSignal]
    rcases hsig : (if (push4 sigCandles candle).length < 4 then none
      else detectPatternAndSignal P.symbol P.tfMin (push4 sigCandles candle)
        (push4 sigSnaps snap) P.dojiRat false) with _ | g
    · simp
    · have hlive : g.isLive = false := by
        rcases Nat.lt_or_ge (push4 sigCandles candle).length 4 with hlen | hlen
        · rw [if_pos hlen] at hsig
          cases hsig
        · rw [if_neg (by omega)] at hsig
          exact detectPatternAndSignal_isLive _ _ _ _ _ _ _ hsig
      simp [hlive]

lemma feedList_map_candle (P : MonParams) (st : MonState) (bf : List Candle)
    (latestEpoch : ℤ) (env : TradeEnv) :
    (feedList P st bf latestEpoch env).2.map (fun e => e.candle) = bf := by
  induction bf generalizing st with
  | nil => rfl
  | cons c rest ih =>
    simp [feedList, feedCandle, ih]

/-- C4: with cursor E0 and the gateway's latest closed bar at E0 + 3×tf whose
backfill for (E0, E0+3×tf] returns the three intervening bars, one
process_once call feeds exactly those three bars in order, advances the
cursor after each bar, marks only the bar at the latest epoch as live, never
reaches order planning or submission for the two earlier (non-live) bars,
and still runs the guard on and feeds the indicators with all three bars. -/
theorem c4_backfill_gap_recovery (P : MonParams) (st : MonState) (gw : Gateway)
    (env : TradeEnv) (lc b1 b2 b3 : Candle) (E0 tf : ℤ)
    (hseen : st.lastSeen = E0) (hl : gw.latest = some lc)
    (hlc : lc.epoch = E0 + 3 * tf) (htf : 0 < tf)
    (hbf : gw.backfill E0 (E0 + 3 * tf) = [b1, b2, b3])
    (he1 : b1.epoch = E0 + tf) (he2 : b2.epoch = E0 + 2 * tf)
    (he3 : b3.epoch = E0 + 3 * tf) :
    ((processOnceSeen P st gw env).2.map (fun e => e.candle) = [b1, b2, b3]) ∧
    ((processOnceSeen P st gw env).2.map (fun e => e.isLive) = [false, false, true]) ∧
    ((processOnceSeen P st gw env).2.map (fun e => e.cursorAfter) =
      [E0 + tf, E0 + 2 * tf, E0 + 3 * tf]) ∧
    ((processOnceSeen P st gw env).1.lastSeen = E0 + 3 * tf) ∧
    (((processOnceSeen P st gw env).2.take 2).map
      (fun e => e.plannerInvoked || e.executorInvoked) = [false, false]) ∧
    ((processOnceSeen P st gw env).2.map (fun e => e.guardFed) = [true, true, true]) ∧
    ((processOnceSeen P st gw env).1.svc =
      (consumeCandle (consumeCandle (consumeCandle st.svc b1).1 b2).1 b3).1) := by
  have hproc : processOnceSeen P st gw env = feedList P st [b1, b2, b3] (E0 + 3 * tf) env := by
    simp only [processOnceSeen, hl]
    rw [if_neg (by omega), hseen, hlc, hbf]
  have n1 : (b1.epoch == E0 + 3 * tf) = false := by
    rw [he1]
    simp only [beq_eq_false_iff_ne, ne_eq]
    omega
  have n2 : (b2.epoch == E0 + 3 * tf) = false := by
    rw [he2]
    simp only [beq_eq_false_iff_ne, ne_eq]
    omega
  have n3 : (b3.epoch == E0 + 3 * tf) = true := by
    rw [he3]
    simp
  have g1 := maybeEmitSignal_notLive_gates P st.sigCandles st.sigSnaps
    (push4 st.candles4 b1) b1 (some (consumeCandle st.svc b1).2) env
  rw [hproc]
  simp only [feedList, feedCandle, n1, n2, n3]
  refine And.intro ?_ (And.intro ?_ (And.intro ?_ (And.intro ?_
    (And.intro ?_ (And.intro ?_ ?_)))))
  · rfl
  · rfl
  · simp [he1, he2, he3]
  · simp [he3]
  case _ =>
    simp only [List.take, List.map]
    rw [g1.1, g1.2]
    have g2 := maybeEmitSignal_notLive_gates P
      (maybeEmitSignal P st.sigCandles st.sigSnaps (push4 st.candles4 b1) b1
        (some (consumeCandle st.svc b1).2) false env).1.1
      (maybeEmitSignal P st.sigCandles st.sigSnaps (push4 st.candles4 b1) b1
        (some (consumeCandle st.svc b1).2) false env).1.2
      (push4 (push4 st.candles4 b1) b2) b2
      (some (consumeCandle (consumeCandle st.svc b1).1 b2).2) env
    rw [g2.1, g2.2]
    simp
  · trivial
  · trivial

/-- Concrete bars and gateway for the C4 witness (timeframe 60 s, cursor 0,
latest bar at epoch 180 with a 3-bar backfill). -/
def c4wB1 : Candle := ⟨60, 60, 1, 1, 1, 1, 1⟩

def c4wB2 : Candle := ⟨120, 120, 1, 1, 1, 1, 1⟩

def c4wB3 : Candle := ⟨180, 180, 1, 1, 1, 1, 1⟩

def c4wGw : Gateway :=
  ⟨some c4wB3, [], fun a b => if a = 0 ∧ b = 180 then [c4wB1, c4wB2, c4wB3] else []⟩

def c4wSt : MonState := ⟨0, [], SvcState.empty, [], []⟩

def c4wP : MonParams := ⟨1, 1, 1/10⟩

def c4wEnv : TradeEnv := ⟨false, false, true⟩

/-- Witness for C4 at the concrete 3-bar gap. -/
theorem c4_backfill_gap_recovery_witness :
    ((processOnceSeen c4wP c4wSt c4wGw c4wEnv).2.map (fun e => e.candle) =
      [c4wB1, c4wB2, c4wB3]) ∧
    ((processOnceSeen c4wP c4wSt c4wGw c4wEnv).2.map (fun e => e.isLive) =
      [false, false, true]) ∧
    ((processOnceSeen c4wP c4wSt c4wGw c4wEnv).2.map (fun e => e.cursorAfter) =
      [0 + 60, 0 + 2 * 60, 0 + 3 * 60]) ∧
    ((processOnceSeen c4wP c4wSt c4wGw c4wEnv).1.lastSeen = 0 + 3 * 60) ∧
    (((processOnceSeen c4wP c4wSt c4wGw c4wEnv).2.take 2).map
      (fun e => e.plannerInvoked || e.executorInvoked) = [false, false]) ∧
    ((processOnceSeen c4wP c4wSt c4wGw c4wEnv).2.map (fun e => e.guardFed) =
      [true, true, true]) ∧
    ((processOnceSeen c4wP c4wSt c4wGw c4wEnv).1.svc =
      (consumeCandle (consumeCandle (consumeCandle c4wSt.svc c4wB1).1 c4wB2).1 c4wB3).1) :=
  c4_backfill_gap_recovery c4wP c4wSt c4wGw c4wEnv c4wB3 c4wB1 c4wB2 c4wB3 0 60
    rfl rfl (by decide) (by norm_num) (by decide) (by decide) (by decide) (by decide)

/-! ## C9: ordering of backfill bars -/

/-- C9 counterexample: the pipeline itself performs no sort. With a gateway
whose backfill list is out of order ([epoch 120, epoch 60]), the bars are
handed downstream exactly in that order, which is not strictly ascending. -/
theorem c9_pipeline_sort_counterexample :
    ((processOnceSeen ⟨1, 1, 1/10⟩ ⟨0, [], SvcState.empty, [], []⟩
        ⟨some ⟨120, 120, 1, 1, 1, 1, 1⟩, [],
         fun _ _ => [⟨120, 120, 1, 1, 1, 1, 1⟩, ⟨60, 60, 1, 1, 1, 1, 1⟩]⟩
        ⟨false, false, true⟩).2.map (fun e => e.candle.epoch) = [120, 60]) ∧
    ¬ List.Chain' (fun a b => a < b) [(120 : ℤ), 60] :=
  ⟨by decide, by
    intro h
    have := (List.chain'_cons.mp h).1
    omega⟩

instance : IsTotal Candle (fun a b : Candle => a.epoch ≤ b.epoch) :=
  ⟨fun a b => Int.le_total a.epoch b.epoch⟩

instance : IsTrans Candle (fun a b : Candle => a.epoch ≤ b.epoch) :=
  ⟨fun _ _ _ h1 h2 => le_trans h1 h2⟩

/-- C9 amended: the defensive ascending sort lives in the gateway adapter,
not in the pipeline: get_backfill_candles always returns a list sorted
ascending by epoch, and the pipeline feeds the list returned by the gateway
downstream in exactly the order received (so bars from the real adapter
arrive ascending, but an out-of-order gateway list is fed unsorted). -/
theorem c9_backfill_order_amended :
    (∀ (sinceE untilE : ℤ) (rates : List Candle),
      List.Sorted (fun a b => a.epoch ≤ b.epoch)
        (getBackfillCandles sinceE untilE rates)) ∧
    (∀ (P : MonParams) (st : MonState) (gw : Gateway) (env : TradeEnv)
      (lc : Candle) (bf : List Candle),
      gw.latest = some lc → st.lastSeen < lc.epoch →
      gw.backfill st.lastSeen lc.epoch = bf → bf ≠ [] →
      (processOnceSeen P st gw env).2.map (fun e => e.candle) = bf) := by
  constructor
  · intro sinceE untilE rates
    unfold getBackfillCandles
    split
    · simp
    · exact List.sorted_insertionSort _ _
  · intro P st gw env lc bf hl hlt hbf hne
    simp only [processOnceSeen, hl]
    rw [if_neg (by omega), hbf]
    cases bf with
    | nil => exact absurd rfl hne
    | cons c cs => exact feedList_map_candle P st (c :: cs) lc.epoch env

/-- Witness for C9 amended: the adapter sorts the out-of-order rows, and the
pipeline feeds a 2-element backfill batch in the order received. -/
theorem c9_backfill_order_amended_witness :
    List.Sorted (fun a b : Candle => a.epoch ≤ b.epoch)
      (getBackfillCandles 0 120
        [⟨120, 120, 1, 1, 1, 1, 1⟩, ⟨60, 60, 1, 1, 1, 1, 1⟩]) ∧
    (processOnceSeen ⟨1, 1, 1/10⟩ ⟨0, [], SvcState.empty, [], []⟩
        ⟨some ⟨120, 120, 1, 1, 1, 1, 1⟩, [],
         fun _ _ => [⟨120, 120, 1, 1, 1, 1, 1⟩, ⟨60, 60, 1, 1, 1, 1, 1⟩]⟩
        ⟨false, false, true⟩).2.map (fun e => e.candle) =
      [⟨120, 120, 1, 1, 1, 1, 1⟩, ⟨60, 60, 1, 1, 1, 1, 1⟩] :=
  ⟨c9_backfill_order_amended.1 0 120
      [⟨120, 120, 1, 1, 1, 1, 1⟩, ⟨60, 60, 1, 1, 1, 1, 1⟩],
   c9_backfill_order_amended.2 ⟨1, 1, 1/10⟩ ⟨0, [], SvcState.empty, [], []⟩
      ⟨some ⟨120, 120, 1, 1, 1, 1, 1⟩, [],
       fun _ _ => [⟨120, 120, 1, 1, 1, 1, 1⟩, ⟨60, 60, 1, 1, 1, 1, 1⟩]⟩
      ⟨false, false, true⟩ ⟨120, 120, 1, 1, 1, 1, 1⟩
      [⟨120, 120, 1, 1, 1, 1, 1⟩, ⟨60, 60, 1, 1, 1, 1, 1⟩]
      rfl (by decide) rfl (by decide)⟩

/-! ## C10: MACD histogram presence vs the bars-until-ready counter -/

lemma ema_update_period (e : EmaState) (x : ℚ) : (e.update x).period = e.period := rfl

lemma ema_update_seeding_lt (e : EmaState) (x : ℚ) (hv : e.value = none)
    (hlt : e.seed.length + 1 < e.period) :
    (e.update x).value = none ∧ (e.update x).seed.length = e.seed.length + 1 := by
  simp [EmaState.update, emaSeedOrUpdate, hv, hlt]

lemma ema_update_seeding_done (e : EmaState) (x : ℚ) (hv : e.value = none)
    (heq : e.seed.length + 1 = e.period) :
    (e.update x).value.isSome = true := by
  have h1 : ¬ (e.seed.length + 1 < e.period) := by omega
  simp [EmaState.update, emaSeedOrUpdate, hv, h1, heq]

/-- Warm-up invariant for the MACD(12,26,9) state after n closes from empty:
the component EMAs are still seeding (with the seed lengths implied by n) or
already carry a value. -/
def macdQ (s : MacdState) (n : ℕ) : Prop :=
  s.ema12.period = 12 ∧ s.ema26.period = 26 ∧ s.signal9.period = 9 ∧
  (if n < 12 then s.ema12.value = none ∧ s.ema12.seed.length = n
   else s.ema12.value.isSome = true) ∧
  (if n < 26 then s.ema26.value = none ∧ s.ema26.seed.length = n
   else s.ema26.value.isSome = true) ∧
  (if n < 26 then s.signal9.value = none ∧ s.signal9.seed.length = 0
   else if n < 34 then s.signal9.value = none ∧ s.signal9.seed.length = n - 25
   else s.signal9.value.isSome = true)

lemma macdQ_empty : macdQ MacdState.empty 0 := by
  simp [macdQ, MacdState.empty, EmaState.empty]

lemma macdQ_step (s : MacdState) (n : ℕ) (x : ℚ) (h : macdQ s n) :
    macdQ (s.update x).1 (n + 1) ∧
    ((s.update x).2.2.2.isSome = true ↔ 34 ≤ n + 1) := by
  obtain ⟨hp12, hp26, hp9, h12, h26, h9⟩ := h
  by_cases hA : n + 1 < 12
  · -- region A: everything still seeding, MACD absent
    rw [if_pos (by omega)] at h12
    rw [if_pos (by omega)] at h26
    rw [if_pos (by omega)] at h9
    have e12 := ema_update_seeding_lt s.ema12 x h12.1 (by omega)
    have e26 := ema_update_seeding_lt s.ema26 x h26.1 (by omega)
    refine ⟨⟨by simp [MacdState.update, ema_update_period, hp12],
      by simp [MacdState.update, ema_update_period, hp26], ?_, ?_, ?_, ?_⟩, ?_⟩
    · simp [MacdState.update, e12.1, e26.1, hp9]
    · rw [if_pos hA]
      simp [MacdState.update, e12.1, e26.1, h12.2]
      omega
    · rw [if_pos (by omega)]
      simp [MacdState.update, e12.1, e26.1, h26.2]
      omega
    · rw [if_pos (by omega)]
      simp [MacdState.update, e12.1, e26.1, h9.1, h9.2]
    · simp [MacdState.update, e12.1, e26.1]
      omega
  · by_cases hB : n + 1 < 26
    · -- region B: ema12 present, ema26 still seeding, MACD absent
      rw [if_pos (by omega)] at h26
      rw [if_pos (by omega)] at h9
      have hv12 : (s.ema12.update x).value.isSome = true := by
        by_cases hs : n < 12
        · rw [if_pos hs] at h12
          exact ema_update_seeding_done s.ema12 x h12.1 (by omega)
        · rw [if_neg hs] at h12
          exact ema_update_some s.ema12 x h12
      have e26 := ema_update_seeding_lt s.ema26 x h26.1 (by omega)
      obtain ⟨a, ha⟩ := Option.isSome_iff_exists.mp hv12
      refine ⟨⟨by simp [MacdState.update, ema_update_period, hp12],
        by simp [MacdState.update, ema_update_period, hp26], ?_, ?_, ?_, ?_⟩, ?_⟩
      · simp [MacdState.update, ha, e26.1, hp9]
      · rw [if_neg (by omega)]
        simp [MacdState.update, ha, e26.1, hv12]
      · rw [if_pos (by omega)]
        simp [MacdState.update, ha, e26.1, h26.2]
        omega
      · rw [if_pos (by omega)]
        simp [MacdState.update, ha, e26.1, h9.1, h9.2]
      · simp [MacdState.update, ha, e26.1]
        omega
    · -- regions C, D, E: both price EMAs present, MACD line present
      have hv12 : (s.ema12.update x).value.isSome = true := by
        rw [if_neg (by omega)] at h12
        exact ema_update_some s.ema12 x h12
      have hv26 : (s.ema26.update x).value.isSome = true := by
        by_cases hs : n < 26
        · rw [if_pos hs] at h26
          exact ema_update_seeding_done s.ema26 x h26.1 (by omega)
        · rw [if_neg hs] at h26
          exact ema_update_some s.ema26 x h26
      obtain ⟨a, ha⟩ := Option.isSome_iff_exists.mp hv12
      obtain ⟨b, hb⟩ := Option.isSome_iff_exists.mp hv26
      by_cases hC : n + 1 < 34
      · -- region C: the signal EMA is still seeding on MACD inputs
        have hsig : (s.signal9.update (a - b)).value = none ∧
            (s.signal9.update (a - b)).seed.length = n + 1 - 25 := by
          by_cases hs : n < 26
          · rw [if_pos hs] at h9
            have := ema_update_seeding_lt s.signal9 (a - b) h9.1 (by omega)
            refine ⟨this.1, ?_⟩
            rw [this.2, h9.2]
            omega
          · rw [if_neg hs, if_pos (by omega)] at h9
            have := ema_update_seeding_lt s.signal9 (a - b) h9.1 (by omega)
            refine ⟨this.1, ?_⟩
            rw [this.2, h9.2]
            omega
        refine ⟨⟨by simp [MacdState.update, ema_update_period, hp12],
          by simp [MacdState.update, ema_update_period, hp26], ?_, ?_, ?_, ?_⟩, ?_⟩
        · simp [MacdState.update, ha, hb, ema_update_period, hp9]
        · rw [if_neg (by omega)]
          simp [MacdState.update, ha, hb, hv12]
        · rw [if_neg (by omega)]
          simp [MacdState.update, ha, hb, hv26]
        · rw [if_neg (by omega), if_pos (by omega)]
          simp [MacdState.update, ha, hb, hsig.1, hsig.2]
        · simp [MacdState.update, ha, hb, hsig.1]
          omega
      · -- regions D and E: the signal EMA value becomes (or stays) present
        have hsig : (s.signal9.update (a - b)).value.isSome = true := by
          by_cases hs : n < 34
          · rw [if_neg (by omega), if_pos (by omega)] at h9
            exact ema_update_seeding_done s.signal9 (a - b) h9.1 (by omega)
          · rw [if_neg (by omega), if_neg (by omega)] at h9
            exact ema_update_some s.signal9 (a - b) h9
        obtain ⟨sv, hsv⟩ := Option.isSome_iff_exists.mp hsig
        refine ⟨⟨by simp [MacdState.update, ema_update_period, hp12],
          by simp [MacdState.update, ema_update_period, hp26], ?_, ?_, ?_, ?_⟩, ?_⟩
        · simp [MacdState.update, ha, hb, ema_update_period, hp9]
        · rw [if_neg (by omega)]
          simp [MacdState.update, ha, hb, hv12]
        · rw [if_neg (by omega)]
          simp [MacdState.update, ha, hb, hv26]
        · rw [if_neg (by omega), if_neg (by omega)]
          simp [MacdState.update, ha, hb, hsv]
        · simp [MacdState.update, ha, hb, hsv]
          omega

lemma svcRun_macd_map (cs : List Candle) (st : SvcState) (n : ℕ)
    (hn : st.nCloses = n) (hq : macdQ st.macd n) :
    (svcRun st cs).1.nCloses = n + cs.length ∧
    macdQ (svcRun st cs).1.macd (n + cs.length) ∧
    (svcRun st cs).2.map
      (fun s => (s.histogram.isSome, s.barsUntilReadyMacdHistogram)) =
      (List.range cs.length).map
        (fun i => (decide (34 ≤ n + i + 1), max 0 (35 - ((n : ℤ) + i + 1)))) := by
  induction cs generalizing st n with
  | nil => simpa [svcRun] using ⟨hn, hq⟩
  | cons c cs ih =>
    have hstep := macdQ_step st.macd n c.close hq
    have hst1n : (consumeCandle st c).1.nCloses = n + 1 := by
      simp [consumeCandle, hn]
    have hst1m : (consumeCandle st c).1.macd = (st.macd.update c.close).1 := by
      simp [consumeCandle]
    have hsnapH : (consumeCandle st c).2.histogram = (st.macd.update c.close).2.2.2 := by
      simp [consumeCandle]
    have hsnapB : (consumeCandle st c).2.barsUntilReadyMacdHistogram =
        max 0 (35 - ((n : ℤ) + 1)) := by
      simp [consumeCandle, hn]
    have ihr := ih (consumeCandle st c).1 (n + 1) hst1n (hst1m ▸ hstep.1)
    have hfst : (st.macd.update c.close).2.2.2.isSome = decide (34 ≤ n + 0 + 1) := by
      by_cases h34 : 34 ≤ n + 1
      · simp only [Nat.add_zero]
        simp [h34, hstep.2.mpr h34]
      · simp only [Nat.add_zero]
        rcases hh : (st.macd.update c.close).2.2.2.isSome with _ | _
        · simp [h34]
        · exact absurd (hstep.2.mp hh) h34
    refine ⟨?_, ?_, ?_⟩
    · show (svcRun (consumeCandle st c).1 cs).1.nCloses = n + (cs.length + 1)
      rw [ihr.1]
      omega
    · show macdQ (svcRun (consumeCandle st c).1 cs).1.macd (n + (cs.length + 1))
      have := ihr.2.1
      rwa [show n + 1 + cs.length = n + (cs.length + 1) from by omega] at this
    · show ((consumeCandle st c).2 :: (svcRun (consumeCandle st c).1 cs).2).map
          (fun s => (s.histogram.isSome, s.barsUntilReadyMacdHistogram)) = _
      simp only [List.length_cons]
      rw [List.map_cons, ihr.2.2, List.range_succ_eq_map, List.map_cons, List.map_map]
      congr 1
      · rw [hsnapH, hsnapB, hfst]
        simp
      · apply List.map_congr_left
        intro i _
        have e1 : n + 1 + i + 1 = n + (i + 1) + 1 := by omega
        have e2 : ((n : ℤ) + 1) + i + 1 = (n : ℤ) + ((i : ℤ) + 1) + 1 := by ring
        simp only [Function.comp]
        rw [e1]
        push_cast
        rw [e2]

/-- C10: feeding closes one at a time from an empty IndicatorsService state,
the MACD histogram is absent in the first 33 snapshots and first becomes
present in the snapshot for the 34th close, yet that snapshot reports
bars_until_ready_macd_histogram = max(0, 35 - 34) = 1: there is a snapshot
whose histogram is present while the bars-until-ready counter is nonzero, so
counter = 0 is not equivalent to histogram presence. -/
theorem c10_histogram_ready_counter (cs : List Candle) (h34 : cs.length = 34) :
    ((svcRun SvcState.empty cs).2.map (fun s => s.histogram.isSome) =
      List.replicate 33 false ++ [true]) ∧
    (((svcRun SvcState.empty cs).2.map
      (fun s => s.barsUntilReadyMacdHistogram)).getLast? = some 1) ∧
    (∃ s ∈ (svcRun SvcState.empty cs).2, s.histogram.isSome = true ∧
      s.barsUntilReadyMacdHistogram ≠ 0) := by
  have base := svcRun_macd_map cs SvcState.empty 0 rfl macdQ_empty
  have hpairs := base.2.2
  rw [h34] at hpairs
  have hfst : (svcRun SvcState.empty cs).2.map (fun s => s.histogram.isSome) =
      (List.range 34).map (fun i => decide (34 ≤ 0 + i + 1)) := by
    have := congrArg (List.map Prod.fst) hpairs
    simpa [List.map_map, Function.comp] using this
  have hsnd : (svcRun SvcState.empty cs).2.map
      (fun s => s.barsUntilReadyMacdHistogram) =
      (List.range 34).map (fun i => max 0 (35 - ((0 : ℤ) + i + 1))) := by
    have := congrArg (List.map Prod.snd) hpairs
    simpa [List.map_map, Function.comp] using this
  have hfstv : (svcRun SvcState.empty cs).2.map (fun s => s.histogram.isSome) =
      List.replicate 33 false ++ [true] := by
    rw [hfst]
    decide
  have hsndv : ((svcRun SvcState.empty cs).2.map
      (fun s => s.barsUntilReadyMacdHistogram)).getLast? = some 1 := by
    rw [hsnd]
    decide
  refine ⟨hfstv, hsndv, ?_⟩
  have hne : (svcRun SvcState.empty cs).2 ≠ [] := by
    intro hcon
    rw [hcon] at hfstv
    simp at hfstv
  obtain ⟨s, hs⟩ := Option.isSome_iff_exists.mp (List.getLast?_isSome.mpr hne)
  have hsm : s ∈ (svcRun SvcState.empty cs).2 := by
    obtain ⟨hne2, heq⟩ := List.mem_getLast?_eq_getLast (Option.mem_def.mpr hs)
    rw [heq]
    exact List.getLast_mem hne2
  refine ⟨s, hsm, ?_, ?_⟩
  · have := List.getLast?_map (fun s : IndicatorsSnapshot => s.histogram.isSome)
      (svcRun SvcState.empty cs).2
    rw [hfstv, hs] at this
    simp at this
    exact this
  · have := List.getLast?_map
      (fun s : IndicatorsSnapshot => s.barsUntilReadyMacdHistogram)
      (svcRun SvcState.empty cs).2
    rw [hsndv, hs] at this
    simp at this
    omega

/-- Witness for C10: 34 identical closes fed from the empty service state. -/
theorem c10_histogram_ready_counter_witness :
    ((svcRun SvcState.empty (List.replicate 34 ⟨0, 0, 1, 1, 1, 1, 1⟩)).2.map
      (fun s => s.histogram.isSome) = List.replicate 33 false ++ [true]) ∧
    (((svcRun SvcState.empty (List.replicate 34 ⟨0, 0, 1, 1, 1, 1, 1⟩)).2.map
      (fun s => s.barsUntilReadyMacdHistogram)).getLast? = some 1) ∧
    (∃ s ∈ (svcRun SvcState.empty (List.replicate 34 ⟨0, 0, 1, 1, 1, 1, 1⟩)).2,
      s.histogram.isSome = true ∧ s.barsUntilReadyMacdHistogram ≠ 0) :=
  c10_histogram_ready_counter (List.replicate 34 ⟨0, 0, 1, 1, 1, 1, 1⟩) (by simp)

/-! ## C2: risk engine bound and lot quantization -/

lemma halfEvenInt_intCast (m : ℤ) : halfEvenInt (m : ℚ) = m := by
  simp [halfEvenInt]

lemma pyRound_int_mul (x : ℚ) (d : ℕ) (m : ℤ) (hm : x * 10 ^ d = (m : ℚ)) :
    pyRound x d = x := by
  have hd : ((10 : ℚ) ^ d) ≠ 0 := by positivity
  unfold pyRound
  rw [hm, halfEvenInt_intCast, ← hm]
  field_simp

lemma tzCount_dvd : ∀ (f : ℕ) (m : ℤ), (10 : ℤ) ^ (tzCount f m) ∣ m := by
  intro f
  induction f with
  | zero => intro m; simp [tzCount]
  | succ k ih =>
    intro m
    rw [tzCount]
    split
    · rename_i hc
      have h10 : (10 : ℤ) ∣ m := Int.dvd_of_emod_eq_zero hc.1
      obtain ⟨w, hw⟩ := ih (m / 10)
      refine ⟨w, ?_⟩
      calc m = 10 * (m / 10) := (Int.mul_ediv_cancel' h10).symm
        _ = 10 * (10 ^ tzCount k (m / 10) * w) := by conv_lhs => rw [hw]
        _ = 10 ^ (tzCount k (m / 10) + 1) * w := by ring
    · simp

lemma tzCount_le (f : ℕ) (m : ℤ) : tzCount f m ≤ f := by
  induction f generalizing m with
  | zero => simp [tzCount]
  | succ k ih =>
    rw [tzCount]
    split
    · exact Nat.succ_le_succ (ih (m / 10))
    · omega

lemma stepDownLoop_noop (fuel : ℕ) (lot riskUsed riskTarget riskPerLot minLot lotStep : ℚ)
    (h : ¬ (lot > minLot ∧ riskUsed > riskTarget + 1 / 10 ^ 9)) :
    stepDownLoop fuel lot riskUsed riskTarget riskPerLot minLot lotStep =
      (lot, riskUsed) := by
  cases fuel with
  | zero => rfl
  | succ k =>
    rw [stepDownLoop, if_neg h]

/-- C2 counterexample: with balance 100, risk 1%, entry 1, stop 0.9,
tick_size 0.01, tick_value 1, lot_step 0.01 and min_lot 1 (all hypotheses of
the claim hold), the raw lot 0.1 is clamped up to min_lot = 1, the step-down
loop cannot go below min_lot, and risk_used = 10 far exceeds
balance x risk_percentage + 1e-9 = 1.000000001. -/
theorem c2_compute_lot_counterexample :
    computeLot 10 (1/100) 100 1 (9/10) ⟨0, 2, 1/100, 1, 1/100, 1, 10, 0⟩ = (1, 10) ∧
    ¬ ((computeLot 10 (1/100) 100 1 (9/10) ⟨0, 2, 1/100, 1, 1/100, 1, 10, 0⟩).2 ≤
        100 * (1/100) + 1 / 10 ^ 9) := by
  have h : computeLot 10 (1/100) 100 1 (9/10) ⟨0, 2, 1/100, 1, 1/100, 1, 10, 0⟩ = (1, 10) := by
    have habs : |(1 : ℚ) - 9/10| = 1/10 := by
      rw [abs_of_nonneg] <;> norm_num
    simp only [computeLot, floorToStep]
    rw [habs]
    norm_num
    rw [stepDownLoop_noop 10 1 10 1 10 1 (1/100) (by norm_num)]
    exact ⟨pyRound_int_mul 1 _ (10 ^ (decimalsFromStep (1/100))) (by push_cast; ring), rfl⟩
  refine ⟨h, ?_⟩
  rw [h]
  norm_num

/-- C2 amended: under the claim's hypotheses plus two conditions the broker
environment always satisfies but the claim omitted — the lot step is a
decimal with at most 8 places and min_lot is a positive integer multiple of
lot_step — compute_lot returns a lot that is an exact multiple of lot_step
and at least min_lot, and risk_used is bounded by the larger of the risk
target balance x risk_percentage and the (unavoidable) risk of min_lot
itself. The original claim's bound risk_used <= balance x risk_percentage + eps
fails whenever min_lot forces more risk than the target (see the
counterexample). -/
theorem c2_compute_lot_amended (fuel : ℕ)
    (riskPercentage balance entryPrice stopLoss : ℚ) (meta : SymbolMeta)
    (hbal : 0 < balance) (hrp0 : 0 < riskPercentage) (hrp1 : riskPercentage ≤ 1)
    (hts : 0 < meta.tickSize) (htv : 0 < meta.tickValue) (hls : 0 < meta.lotStep)
    (hes : entryPrice ≠ stopLoss)
    (hz : ∃ z : ℤ, 0 < z ∧ meta.lotStep = (z : ℚ) / 10 ^ 8)
    (hk : ∃ k : ℕ, 0 < k ∧ meta.minLot = (k : ℚ) * meta.lotStep) :
    (∃ n : ℕ, (computeLot fuel riskPercentage balance entryPrice stopLoss meta).1 =
      (n : ℚ) * meta.lotStep) ∧
    meta.minLot ≤ (computeLot fuel riskPercentage balance entryPrice stopLoss meta).1 ∧
    (computeLot fuel riskPercentage balance entryPrice stopLoss meta).2 ≤
      max (balance * riskPercentage)
        (meta.minLot * ((|entryPrice - stopLoss| / meta.tickSize) * meta.tickValue)) := by
  obtain ⟨z, hz0, hzE⟩ := hz
  obtain ⟨k, hk0, hkE⟩ := hk
  have hrtpos : 0 < balance * riskPercentage := by positivity
  have hrt : max 0 (balance * riskPercentage) = balance * riskPercentage :=
    max_eq_right hrtpos.le
  have hpd : 0 < |entryPrice - stopLoss| := abs_pos.mpr (sub_ne_zero.mpr hes)
  have hrpl : 0 < (|entryPrice - stopLoss| / meta.tickSize) * meta.tickValue := by
    positivity
  have hraw : 0 < balance * riskPercentage /
      ((|entryPrice - stopLoss| / meta.tickSize) * meta.tickValue) := by positivity
  have hfl0 : (0 : ℤ) ≤ ⌊balance * riskPercentage /
      ((|entryPrice - stopLoss| / meta.tickSize) * meta.tickValue) / meta.lotStep⌋ :=
    Int.floor_nonneg.mpr (by positivity)
  have hfloor : ((⌊balance * riskPercentage /
      ((|entryPrice - stopLoss| / meta.tickSize) * meta.tickValue) / meta.lotStep⌋ : ℚ) *
      meta.lotStep) *
      ((|entryPrice - stopLoss| / meta.tickSize) * meta.tickValue) ≤
      balance * riskPercentage := by
    have h1 : ((⌊balance * riskPercentage /
        ((|entryPrice - stopLoss| / meta.tickSize) * meta.tickValue) / meta.lotStep⌋ : ℚ) *
        meta.lotStep) ≤ balance * riskPercentage /
        ((|entryPrice - stopLoss| / meta.tickSize) * meta.tickValue) := by
      calc ((⌊balance * riskPercentage /
          ((|entryPrice - stopLoss| / meta.tickSize) * meta.tickValue) / meta.lotStep⌋ : ℚ) *
          meta.lotStep)
          ≤ (balance * riskPercentage /
            ((|entryPrice - stopLoss| / meta.tickSize) * meta.tickValue) / meta.lotStep) *
            meta.lotStep :=
            mul_le_mul_of_nonneg_right (Int.floor_le _) hls.le
        _ = balance * riskPercentage /
            ((|entryPrice - stopLoss| / meta.tickSize) * meta.tickValue) :=
            div_mul_cancel₀ _ (ne_of_gt hls)
    calc ((⌊balance * riskPercentage /
        ((|entryPrice - stopLoss| / meta.tickSize) * meta.tickValue) / meta.lotStep⌋ : ℚ) *
        meta.lotStep) *
        ((|entryPrice - stopLoss| / meta.tickSize) * meta.tickValue)
        ≤ (balance * riskPercentage /
          ((|entryPrice - stopLoss| / meta.tickSize) * meta.tickValue)) *
          ((|entryPrice - stopLoss| / meta.tickSize) * meta.tickValue) :=
          mul_le_mul_of_nonneg_right h1 hrpl.le
      _ = balance * riskPercentage := div_mul_cancel₀ _ (ne_of_gt hrpl)
  have hguard : ¬ (max ((⌊balance * riskPercentage /
      ((|entryPrice - stopLoss| / meta.tickSize) * meta.tickValue) / meta.lotStep⌋ : ℚ) *
      meta.lotStep) meta.minLot > meta.minLot ∧
      max ((⌊balance * riskPercentage /
        ((|entryPrice - stopLoss| / meta.tickSize) * meta.tickValue) / meta.lotStep⌋ : ℚ) *
        meta.lotStep) meta.minLot *
        ((|entryPrice - stopLoss| / meta.tickSize) * meta.tickValue) >
        balance * riskPercentage + 1 / 10 ^ 9) := by
    rintro ⟨h1, h2⟩
    rcases le_or_lt ((⌊balance * riskPercentage /
        ((|entryPrice - stopLoss| / meta.tickSize) * meta.tickValue) / meta.lotStep⌋ : ℚ) *
        meta.lotStep) meta.minLot with hc | hc
    · rw [max_eq_right hc] at h1
      exact lt_irrefl _ h1
    · rw [max_eq_left hc.le] at h2
      have := hfloor
      linarith
  have hmain : computeLot fuel riskPercentage balance entryPrice stopLoss meta =
      (pyRound (max ((⌊balance * riskPercentage /
        ((|entryPrice - stopLoss| / meta.tickSize) * meta.tickValue) / meta.lotStep⌋ : ℚ) *
        meta.lotStep) meta.minLot) (decimalsFromStep meta.lotStep),
       max ((⌊balance * riskPercentage /
        ((|entryPrice - stopLoss| / meta.tickSize) * meta.tickValue) / meta.lotStep⌋ : ℚ) *
        meta.lotStep) meta.minLot *
        ((|entryPrice - stopLoss| / meta.tickSize) * meta.tickValue)) := by
    simp only [computeLot, floorToStep]
    rw [hrt, if_neg (not_le.mpr hrtpos), if_pos hts, if_neg (not_le.mpr hrpl),
      if_neg (not_le.mpr hls), stepDownLoop_noop _ _ _ _ _ _ _ hguard]
  have hlot1 : max ((⌊balance * riskPercentage /
      ((|entryPrice - stopLoss| / meta.tickSize) * meta.tickValue) / meta.lotStep⌋ : ℚ) *
      meta.lotStep) meta.minLot =
      ((max (⌊balance * riskPercentage /
        ((|entryPrice - stopLoss| / meta.tickSize) * meta.tickValue) /
        meta.lotStep⌋.toNat) k : ℕ) : ℚ) * meta.lotStep := by
    rw [hkE, Nat.cast_max, max_mul_of_nonneg _ _ hls.le]
    congr 2
    exact_mod_cast (Int.toNat_of_nonneg hfl0).symm
  have hwint := Int.ediv_mul_cancel (tzCount_dvd 10 (100 * z))
  have hcz : ((100 * z : ℤ) : ℚ) =
      (((100 * z) / (10 : ℤ) ^ (tzCount 10 (100 * z)) : ℤ) : ℚ) *
        (10 : ℚ) ^ (tzCount 10 (100 * z)) := by
    exact_mod_cast hwint.symm
  have htle := tzCount_le 10 (100 * z)
  have hlsd : meta.lotStep * 10 ^ (10 - tzCount 10 (100 * z)) =
      (((100 * z) / (10 : ℤ) ^ (tzCount 10 (100 * z)) : ℤ) : ℚ) := by
    have h10t : ((10 : ℚ) ^ (tzCount 10 (100 * z))) ≠ 0 := by positivity
    apply mul_right_cancel₀ h10t
    have hexp : (10 : ℚ) ^ (10 - tzCount 10 (100 * z)) * 10 ^ (tzCount 10 (100 * z)) =
        10 ^ (10 : ℕ) := by
      rw [← pow_add]
      congr 1
      omega
    calc meta.lotStep * 10 ^ (10 - tzCount 10 (100 * z)) * 10 ^ (tzCount 10 (100 * z))
        = meta.lotStep *
          (10 ^ (10 - tzCount 10 (100 * z)) * 10 ^ (tzCount 10 (100 * z))) := by ring
      _ = meta.lotStep * 10 ^ (10 : ℕ) := by rw [hexp]
      _ = ((100 * z : ℤ) : ℚ) := by
          rw [hzE]
          push_cast
          field_simp
          ring
      _ = (((100 * z) / (10 : ℤ) ^ (tzCount 10 (100 * z)) : ℤ) : ℚ) *
          (10 : ℚ) ^ (tzCount 10 (100 * z)) := hcz
  have hdig : decimalsFromStep meta.lotStep = 10 - tzCount 10 (100 * z) := by
    unfold decimalsFromStep
    have hm10 : meta.lotStep * 10 ^ 10 = ((100 * z : ℤ) : ℚ) := by
      rw [hzE]
      push_cast
      field_simp
      ring
    rw [hm10, halfEvenInt_intCast,
      if_neg (by exact (by positivity : (0 : ℤ) < 100 * z).ne.symm)]
  have hNmul : (((max (⌊balance * riskPercentage /
      ((|entryPrice - stopLoss| / meta.tickSize) * meta.tickValue) /
      meta.lotStep⌋.toNat) k : ℕ) : ℚ) * meta.lotStep) *
      10 ^ (decimalsFromStep meta.lotStep) =
      (((max (⌊balance * riskPercentage /
        ((|entryPrice - stopLoss| / meta.tickSize) * meta.tickValue) /
        meta.lotStep⌋.toNat) k : ℕ) : ℤ) *
        ((100 * z) / (10 : ℤ) ^ (tzCount 10 (100 * z))) : ℤ) := by
    rw [hdig]
    calc (((max (⌊balance * riskPercentage /
        ((|entryPrice - stopLoss| / meta.tickSize) * meta.tickValue) /
        meta.lotStep⌋.toNat) k : ℕ) : ℚ) * meta.lotStep) *
        10 ^ (10 - tzCount 10 (100 * z))
        = ((max (⌊balance * riskPercentage /
          ((|entryPrice - stopLoss| / meta.tickSize) * meta.tickValue) /
          meta.lotStep⌋.toNat) k : ℕ) : ℚ) *
          (meta.lotStep * 10 ^ (10 - tzCount 10 (100 * z))) := by ring
      _ = ((max (⌊balance * riskPercentage /
          ((|entryPrice - stopLoss| / meta.tickSize) * meta.tickValue) /
          meta.lotStep⌋.toNat) k : ℕ) : ℚ) *
          (((100 * z) / (10 : ℤ) ^ (tzCount 10 (100 * z)) : ℤ) : ℚ) := by rw [hlsd]
      _ = _ := by push_cast; ring
  have hpy := pyRound_int_mul _ _ _ hNmul
  refine ⟨⟨max (⌊balance * riskPercentage /
      ((|entryPrice - stopLoss| / meta.tickSize) * meta.tickValue) /
      meta.lotStep⌋.toNat) k, ?_⟩, ?_, ?_⟩
  · rw [hmain]
    show pyRound _ _ = _
    rw [hlot1, hpy]
  · rw [hmain]
    show meta.minLot ≤ pyRound _ _
    rw [hlot1, hpy, hkE]
    exact mul_le_mul_of_nonneg_right
      (by exact_mod_cast Nat.cast_le.mpr (le_max_right _ k)) hls.le
  · rw [hmain]
    show max _ _ * _ ≤ _
    rw [max_mul_of_nonneg _ _ hrpl.le]
    exact max_le_max hfloor (le_refl _)

/-- Witness for C2 amended at the spec's sizing scenario: balance 10000,
risk 1 percent, entry 1.20000, stop 1.19500, tick_size 0.00001,
tick_value 1, lot_step = min_lot = 0.01. -/
theorem c2_compute_lot_amended_witness :
    (∃ n : ℕ, (computeLot 10 (1/100) 10000 (12/10) (1195/1000)
      ⟨0, 5, 1/100000, 1, 1/100, 1/100, 0, 0⟩).1 = (n : ℚ) * (1/100)) ∧
    (1/100 : ℚ) ≤ (computeLot 10 (1/100) 10000 (12/10) (1195/1000)
      ⟨0, 5, 1/100000, 1, 1/100, 1/100, 0, 0⟩).1 ∧
    (computeLot 10 (1/100) 10000 (12/10) (1195/1000)
      ⟨0, 5, 1/100000, 1, 1/100, 1/100, 0, 0⟩).2 ≤
      max (10000 * (1/100)) ((1/100) * ((|(12/10 : ℚ) - 1195/1000| / (1/100000)) * 1)) :=
  c2_compute_lot_amended 10 (1/100) 10000 (12/10) (1195/1000)
    ⟨0, 5, 1/100000, 1, 1/100, 1/100, 0, 0⟩ (by norm_num) (by norm_num) (by norm_num)
    (by norm_num) (by norm_num) (by norm_num) (by norm_num)
    ⟨1000000, by norm_num, by norm_num⟩ ⟨1, by norm_num, by norm_num⟩
